import Mathlib

/-!
Shallow embedding of the ticketing platform server (`src/server.py`).

The durable store holds three tables: `events`, `seats`, `bookings`.
UUIDs are modelled as natural numbers drawn from a fresh-id counter
`nextId` carried in the state.  Each HTTP handler is translated to a
function from a database state to a pair of the resulting database
state and an `Except`-result: an error result models an
`HTTPException`, which aborts the handler before `commit`, so the
transaction rolls back and the returned state is the input state.

Python truthiness matters in two places (`if b.seat_id1:` treats both
`None` and `0` as false); it is modelled by `truthy`.
-/

namespace Ticketing

/-- Row of the `events` table (`class Event` in `server.py`):
`event_id` primary key, `total_tickets` with default 100. -/
structure Event where
  event_id : Nat
  total_tickets : Nat
deriving DecidableEq, Repr

/-- Row of the `seats` table (`class Seat`): composite primary key
`(seat_id, event_id)`, plus the `is_booked` flag. -/
structure Seat where
  seat_id : Nat
  event_id : Nat
  is_booked : Bool
deriving DecidableEq, Repr

/-- Row of the `bookings` table (`class Booking`): primary key
`booking_id`, foreign key `event_id`, two nullable seat-number slots
and the owning `user_id`. -/
structure Booking where
  booking_id : Nat
  event_id : Nat
  seat_id1 : Option Nat
  seat_id2 : Option Nat
  user_id : String
deriving DecidableEq, Repr

/-- The durable store: the three tables plus the UUID generator,
modelled as a counter handing out fresh numeric ids. -/
structure DBState where
  events : List Event
  seats : List Seat
  bookings : List Booking
  nextId : Nat
deriving DecidableEq, Repr

/-- The composite primary key of the `seats` table. -/
def seatKey (st : Seat) : Nat × Nat := (st.event_id, st.seat_id)

/-- Python truthiness of an `Optional[int]`: `None` and `0` are falsy.
Used for `if b.seat_id1` / `if b.seat_id2` in `server.py`. -/
def truthy : Option Nat → Bool
  | none => false
  | some n => n != 0

/-- `select(Booking).where(Booking.event_id == event_uuid)
.where(Booking.user_id == booking.user_id)` in `book_ticket`. -/
def user_bookings (s : DBState) (event_id : Nat) (user_id : String) : List Booking :=
  s.bookings.filter (fun b => b.event_id == event_id && b.user_id == user_id)

/-- `current_user_tickets = sum(1 for b in user_bookings if b.seat_id1)
+ sum(1 for b in user_bookings if b.seat_id2)` in `book_ticket`. -/
def current_user_tickets (s : DBState) (event_id : Nat) (user_id : String) : Nat :=
  ((user_bookings s event_id user_id).filter (fun b => truthy b.seat_id1)).length +
    ((user_bookings s event_id user_id).filter (fun b => truthy b.seat_id2)).length

/-- The unbooked seats of an event:
`select(Seat).where(and_(Seat.event_id == event_uuid, Seat.is_booked == False))`. -/
def unbooked_seats (s : DBState) (event_id : Nat) : List Seat :=
  s.seats.filter (fun st => st.event_id == event_id && st.is_booked == false)

/-- The seat-selection query of `book_ticket`:
`... .order_by(Seat.seat_id).limit(booking.tickets)
.with_for_update(skip_locked=True)`.  With no concurrent lock holder,
`skip_locked` skips nothing, so the query returns the first `tickets`
unbooked seats of the event in ascending `seat_id` order. -/
def available_seats (s : DBState) (event_id : Nat) (tickets : Nat) : List Seat :=
  ((unbooked_seats s event_id).mergeSort (fun a b => a.seat_id ≤ b.seat_id)).take tickets

/-- The domain errors `book_ticket` raises as `HTTPException`s.  The
quota error carries `current_user_tickets` and the requested count; the
capacity error carries `len(available_seats)` and the requested count
(both appear in the `detail` strings). -/
inductive BookErr where
  | notFound
  | quotaExceeded (held : Nat) (requested : Nat)
  | insufficientCapacity (available : Nat) (requested : Nat)
deriving DecidableEq, Repr

/-- `book_ticket` (`POST /tickets/book`).  The pydantic model already
guarantees `0 < tickets ≤ 2`; the handler body is translated
branch-for-branch.  On an `HTTPException` no `commit` happens, so the
state component of the result is the unchanged input state. -/
def book_ticket (s : DBState) (event_id : Nat) (user_id : String) (tickets : Nat) :
    DBState × Except BookErr Booking :=
  match s.events.find? (fun e => e.event_id == event_id) with
  | none => (s, .error .notFound)
  | some _ =>
    let held := current_user_tickets s event_id user_id
    if held + tickets > 2 then
      (s, .error (.quotaExceeded held tickets))
    else
      let avail := available_seats s event_id tickets
      if avail.length < tickets then
        (s, .error (.insufficientCapacity avail.length tickets))
      else
        let seats' := s.seats.map (fun st =>
          if st.event_id == event_id && avail.any (fun a => a.seat_id == st.seat_id) then
            { st with is_booked := true }
          else st)
        let new_booking : Booking :=
          { booking_id := s.nextId
            event_id := event_id
            seat_id1 := (avail[0]?).map Seat.seat_id
            seat_id2 := (avail[1]?).map Seat.seat_id
            user_id := user_id }
        ({ s with seats := seats', bookings := s.bookings ++ [new_booking],
                  nextId := s.nextId + 1 },
          .ok new_booking)

/-- The domain error `cancel_ticket` raises. -/
inductive CancelErr where
  | notFound
deriving DecidableEq, Repr

/-- One seat-release step of `cancel_ticket`: look up the seat row with
the given `(event_id, seat_id)` key and, if found, set
`is_booked = False`; when no row matches this is the identity. -/
def free_seat (seats : List Seat) (event_id seat_id : Nat) : List Seat :=
  seats.map (fun st =>
    if st.event_id == event_id && st.seat_id == seat_id then
      { st with is_booked := false }
    else st)

/-- `cancel_ticket` (`POST /tickets/cancel`): look up the booking,
release each truthy seat slot that resolves to a seat row, delete the
booking, commit.  A slot that does not resolve is silently skipped. -/
def cancel_ticket (s : DBState) (booking_id : Nat) :
    DBState × Except CancelErr Nat :=
  match s.bookings.find? (fun b => b.booking_id == booking_id) with
  | none => (s, .error .notFound)
  | some booking =>
    let seats1 :=
      if truthy booking.seat_id1 then
        free_seat s.seats booking.event_id (booking.seat_id1.getD 0)
      else s.seats
    let seats2 :=
      if truthy booking.seat_id2 then
        free_seat seats1 booking.event_id (booking.seat_id2.getD 0)
      else seats1
    let bookings' := s.bookings.filter (fun b => !(b.booking_id == booking_id))
    ({ s with seats := seats2, bookings := bookings' }, .ok booking_id)

/-- `initialize_event` (`POST /events/initialize`): the handler takes
no request body, so `Event()` is created with the column default
`total_tickets = 100`, and one unbooked seat row per number in
`range(1, total_tickets + 1)` is inserted in the same transaction.
Returns the new state and the fresh event id. -/
def initialize_event (s : DBState) : DBState × Nat :=
  let eid := s.nextId
  let new_event : Event := { event_id := eid, total_tickets := 100 }
  let new_seats : List Seat :=
    (List.range' 1 new_event.total_tickets).map
      (fun i => { seat_id := i, event_id := eid, is_booked := false })
  ({ s with events := s.events ++ [new_event],
            seats := s.seats ++ new_seats,
            nextId := s.nextId + 1 },
    eid)

/-- The populated seat-slot references of a booking, as a list. -/
def refs (b : Booking) : List Nat :=
  b.seat_id1.toList ++ b.seat_id2.toList

/-- The number of seats a user holds for an event, counted the way the
spec words it: the sum over the user's live bookings of their populated
seat slots. -/
def quotaSum (s : DBState) (event_id : Nat) (user_id : String) : Nat :=
  ((user_bookings s event_id user_id).map (fun b => (refs b).length)).sum

/-- The empty database: no rows, counter at zero. -/
def emptyDB : DBState := ⟨[], [], [], 0⟩

/-- States reachable from the empty database by the API operations.
Failing calls return the unchanged state, so only successful calls
appear as steps; `book` carries the pydantic bound `0 < tickets ≤ 2`. -/
inductive Reachable : DBState → Prop where
  | empty : Reachable emptyDB
  | init_event {s : DBState} : Reachable s → Reachable (initialize_event s).1
  | book {s s' : DBState} {event_id : Nat} {user_id : String} {tickets : Nat} {b : Booking} :
      Reachable s → 1 ≤ tickets → tickets ≤ 2 →
      book_ticket s event_id user_id tickets = (s', .ok b) → Reachable s'
  | cancel {s s' : DBState} {booking_id r : Nat} :
      Reachable s → cancel_ticket s booking_id = (s', .ok r) → Reachable s'

/-! ### Basic inversion lemmas for the three handlers -/

/-- The booking row `book_ticket` inserts on its success path. -/
def book_new_booking (s : DBState) (event_id : Nat) (user_id : String) (tickets : Nat) :
    Booking :=
  { booking_id := s.nextId
    event_id := event_id
    seat_id1 := ((available_seats s event_id tickets)[0]?).map Seat.seat_id
    seat_id2 := ((available_seats s event_id tickets)[1]?).map Seat.seat_id
    user_id := user_id }

/-- The update `book_ticket` applies to one seat row: the selected
rows get `is_booked = true`, all others are untouched. -/
def bookTransform (s : DBState) (event_id tickets : Nat) (st : Seat) : Seat :=
  if st.event_id == event_id &&
      (available_seats s event_id tickets).any (fun a => a.seat_id == st.seat_id) then
    { st with is_booked := true }
  else st

/-- The database state `book_ticket` commits on its success path. -/
def book_commit (s : DBState) (event_id : Nat) (user_id : String) (tickets : Nat) : DBState :=
  { s with
    seats := s.seats.map (bookTransform s event_id tickets)
    bookings := s.bookings ++ [book_new_booking s event_id user_id tickets]
    nextId := s.nextId + 1 }

theorem seatKey_bookTransform (s : DBState) (e t : Nat) (st : Seat) :
    seatKey (bookTransform s e t st) = seatKey st := by
  unfold bookTransform
  split <;> rfl

theorem bookTransform_seat_id (s : DBState) (e t : Nat) (st : Seat) :
    (bookTransform s e t st).seat_id = st.seat_id := by
  unfold bookTransform
  split <;> rfl

theorem bookTransform_event_id (s : DBState) (e t : Nat) (st : Seat) :
    (bookTransform s e t st).event_id = st.event_id := by
  unfold bookTransform
  split <;> rfl

theorem bookTransform_booked (s : DBState) (e t : Nat) (st : Seat)
    (h : st.is_booked = true) : (bookTransform s e t st).is_booked = true := by
  unfold bookTransform
  split <;> simp [h]

/-- The selection condition of `bookTransform`, in propositional form. -/
theorem bookTransform_cond (s : DBState) (e t : Nat) (st : Seat) :
    (st.event_id == e &&
        (available_seats s e t).any (fun a => a.seat_id == st.seat_id)) = true ↔
      st.event_id = e ∧ st.seat_id ∈ (available_seats s e t).map Seat.seat_id := by
  simp only [Bool.and_eq_true, beq_iff_eq, List.any_eq_true, List.mem_map]

theorem bookTransform_selected {s : DBState} {e t : Nat} {st : Seat}
    (h1 : st.event_id = e) (h2 : st.seat_id ∈ (available_seats s e t).map Seat.seat_id) :
    bookTransform s e t st = { st with is_booked := true } := by
  unfold bookTransform
  rw [if_pos ((bookTransform_cond s e t st).mpr ⟨h1, h2⟩)]

theorem bookTransform_not_selected {s : DBState} {e t : Nat} {st : Seat}
    (h : ¬(st.event_id = e ∧ st.seat_id ∈ (available_seats s e t).map Seat.seat_id)) :
    bookTransform s e t st = st := by
  unfold bookTransform
  rw [if_neg (fun hc => h ((bookTransform_cond s e t st).mp hc))]

/-- On every error path, `book_ticket` raises before `commit`, so the
resulting state is the input state. -/
theorem book_ticket_error_state (s : DBState) (e : Nat) (u : String) (t : Nat) (err : BookErr)
    (h : (book_ticket s e u t).2 = .error err) : (book_ticket s e u t).1 = s := by
  unfold book_ticket at h ⊢
  cases hf : s.events.find? (fun x => x.event_id == e) with
  | none => simp [hf]
  | some ev =>
    simp only [hf] at h ⊢
    by_cases hq : current_user_tickets s e u + t > 2
    · simp [hq]
    · by_cases hcap : (available_seats s e t).length < t
      · simp [hq, hcap]
      · simp [hq, hcap] at h

/-- Inversion of a successful `book_ticket` call: the event was found,
the quota check passed, exactly `tickets` seats were selected, and the
committed state and the returned booking are the expected ones. -/
theorem book_ticket_ok (s s' : DBState) (e : Nat) (u : String) (t : Nat) (b : Booking)
    (h : book_ticket s e u t = (s', .ok b)) :
    (∃ ev ∈ s.events, ev.event_id = e) ∧
    current_user_tickets s e u + t ≤ 2 ∧
    (available_seats s e t).length = t ∧
    b = book_new_booking s e u t ∧
    s' = book_commit s e u t := by
  unfold book_ticket at h
  cases hf : s.events.find? (fun x => x.event_id == e) with
  | none => simp [hf] at h
  | some ev =>
    simp only [hf] at h
    by_cases hq : current_user_tickets s e u + t > 2
    · simp [hq] at h
    · by_cases hcap : (available_seats s e t).length < t
      · simp [hq, hcap] at h
      · simp only [hq, hcap, if_false] at h
        obtain ⟨h1, h2⟩ := Prod.mk.injEq .. ▸ h
        have hb : b = book_new_booking s e u t := by
          simpa [book_new_booking, eq_comm] using h2
        have hle : (available_seats s e t).length ≤ t := by
          simp [available_seats, List.length_take]
        refine ⟨⟨ev, List.mem_of_find?_eq_some hf, by simpa using List.find?_some hf⟩,
          by omega, by omega, hb, ?_⟩
        rw [← h1]
        rfl

/-- The database state `cancel_ticket` commits on its success path,
given the booking row the lookup returned. -/
def cancel_commit (s : DBState) (booking : Booking) (booking_id : Nat) : DBState :=
  { s with
    seats :=
      (fun seats1 =>
        if truthy booking.seat_id2 then
          free_seat seats1 booking.event_id (booking.seat_id2.getD 0)
        else seats1)
      (if truthy booking.seat_id1 then
          free_seat s.seats booking.event_id (booking.seat_id1.getD 0)
        else s.seats)
    bookings := s.bookings.filter (fun b => !(b.booking_id == booking_id)) }

/-- On its error path, `cancel_ticket` leaves the state unchanged. -/
theorem cancel_ticket_error_state (s : DBState) (bid : Nat) (err : CancelErr)
    (h : (cancel_ticket s bid).2 = .error err) : (cancel_ticket s bid).1 = s := by
  unfold cancel_ticket at h ⊢
  cases hf : s.bookings.find? (fun b => b.booking_id == bid) with
  | none => simp [hf]
  | some booking => simp [hf] at h

/-- `cancel_ticket` reports `NotFound` exactly when no booking row has
the requested id. -/
theorem cancel_ticket_not_found_iff (s : DBState) (bid : Nat) :
    (cancel_ticket s bid).2 = .error .notFound ↔ ∀ b ∈ s.bookings, b.booking_id ≠ bid := by
  unfold cancel_ticket
  cases hf : s.bookings.find? (fun b => b.booking_id == bid) with
  | none =>
    simp only [List.find?_eq_none, beq_iff_eq] at hf
    simpa using hf
  | some booking =>
    have hmem := List.mem_of_find?_eq_some hf
    have hid : booking.booking_id = bid := by simpa using List.find?_some hf
    simp only []
    constructor
    · intro hcontra
      simp at hcontra
    · intro hall
      exact absurd hid (hall booking hmem)

/-- Inversion of a successful `cancel_ticket` call. -/
theorem cancel_ticket_ok (s s' : DBState) (bid r : Nat)
    (h : cancel_ticket s bid = (s', .ok r)) :
    ∃ booking, s.bookings.find? (fun b => b.booking_id == bid) = some booking ∧
      r = bid ∧ s' = cancel_commit s booking bid := by
  unfold cancel_ticket at h
  cases hf : s.bookings.find? (fun b => b.booking_id == bid) with
  | none => simp [hf] at h
  | some booking =>
    simp only [hf] at h
    obtain ⟨h1, h2⟩ := Prod.mk.injEq .. ▸ h
    refine ⟨booking, rfl, by simpa [eq_comm] using h2, ?_⟩
    rw [← h1]
    rfl

/-! ### Facts about the seat-selection query -/

theorem mem_unbooked_seats {s : DBState} {e : Nat} {a : Seat} :
    a ∈ unbooked_seats s e ↔ a ∈ s.seats ∧ a.event_id = e ∧ a.is_booked = false := by
  simp [unbooked_seats, List.mem_filter, and_assoc]

theorem available_seats_perm (s : DBState) (e t : Nat) :
    ∃ rest, (available_seats s e t ++ rest).Perm (unbooked_seats s e) := by
  refine ⟨((unbooked_seats s e).mergeSort (fun a b => a.seat_id ≤ b.seat_id)).drop t, ?_⟩
  rw [available_seats, List.take_append_drop]
  exact List.mergeSort_perm _ _

theorem mem_available_seats {s : DBState} {e t : Nat} {a : Seat}
    (h : a ∈ available_seats s e t) :
    a ∈ s.seats ∧ a.event_id = e ∧ a.is_booked = false := by
  have h1 : a ∈ (unbooked_seats s e).mergeSort (fun a b => a.seat_id ≤ b.seat_id) :=
    (List.take_sublist _ _).subset h
  have h2 : a ∈ unbooked_seats s e := (List.mergeSort_perm _ _).mem_iff.mp h1
  exact mem_unbooked_seats.mp h2

theorem available_seats_sorted (s : DBState) (e t : Nat) :
    List.Pairwise (fun x y : Seat => x.seat_id ≤ y.seat_id) (available_seats s e t) := by
  have hs := @List.sorted_mergeSort Seat (fun a b => a.seat_id ≤ b.seat_id)
    (fun a b c hab hbc => by
      simp only [decide_eq_true_eq] at *
      omega)
    (fun a b => by
      simp only [Bool.or_eq_true, decide_eq_true_eq]
      omega)
    (unbooked_seats s e)
  have := hs.sublist (List.take_sublist t _)
  exact this.imp (fun hab => by simpa using hab)

/-- Under the composite primary key of `seats`, the unbooked seats of
one event have pairwise-distinct seat numbers. -/
theorem unbooked_ids_nodup {s : DBState} (e : Nat)
    (h : (s.seats.map seatKey).Nodup) :
    ((unbooked_seats s e).map Seat.seat_id).Nodup := by
  have hsub : ((unbooked_seats s e).map seatKey).Sublist (s.seats.map seatKey) :=
    (List.filter_sublist _).map seatKey
  have hnd : ((unbooked_seats s e).map seatKey).Nodup := hsub.nodup h
  have heq : (unbooked_seats s e).map seatKey =
      ((unbooked_seats s e).map Seat.seat_id).map (fun sid => (e, sid)) := by
    rw [List.map_map]
    exact List.map_congr_left (fun a ha => by
      simp [seatKey, (mem_unbooked_seats.mp ha).2.1])
  rw [heq] at hnd
  exact hnd.of_map _

theorem available_ids_nodup (s : DBState) (e t : Nat)
    (h : (s.seats.map seatKey).Nodup) :
    ((available_seats s e t).map Seat.seat_id).Nodup := by
  have h1 : ((unbooked_seats s e).mergeSort (fun a b => a.seat_id ≤ b.seat_id)).map Seat.seat_id
      |>.Nodup :=
    (((List.mergeSort_perm _ _).map Seat.seat_id).nodup_iff).mpr (unbooked_ids_nodup e h)
  exact h1.sublist ((List.take_sublist t _).map Seat.seat_id)

/-- A successful selection of `t ≤ 2` seats makes the two seat slots of
the new booking exactly the list of selected seat numbers. -/
theorem refs_book_new_booking {s : DBState} {e t : Nat} {u : String}
    (hlen : (available_seats s e t).length = t) (h2 : t ≤ 2) :
    refs (book_new_booking s e u t) = (available_seats s e t).map Seat.seat_id := by
  have hlen2 : (available_seats s e t).length ≤ 2 := by omega
  show ((available_seats s e t)[0]?.map Seat.seat_id).toList ++
      ((available_seats s e t)[1]?.map Seat.seat_id).toList =
      (available_seats s e t).map Seat.seat_id
  generalize available_seats s e t = l at hlen2
  match l with
  | [] => simp
  | [a] => simp
  | [a, b] => simp
  | a :: b :: c :: l => simp at hlen2

/-! ### Ticket counting: Python truthiness versus populated slots -/

/-- For a booking whose populated slots are positive seat numbers (as
the schema guarantees: seats are numbered from 1), the truthiness count
used by `book_ticket` agrees with the populated-slot count. -/
theorem refs_length_eq (b : Booking) (h1 : ∀ sid ∈ refs b, 1 ≤ sid) :
    (refs b).length =
      (if truthy b.seat_id1 then 1 else 0) + (if truthy b.seat_id2 then 1 else 0) := by
  rcases hs1 : b.seat_id1 with _ | n <;> rcases hs2 : b.seat_id2 with _ | m <;>
    simp_all [refs, truthy, Nat.one_le_iff_ne_zero]

theorem count_filter_eq (l : List Booking)
    (h : ∀ b ∈ l, ∀ sid ∈ refs b, 1 ≤ sid) :
    (l.filter (fun b => truthy b.seat_id1)).length
      + (l.filter (fun b => truthy b.seat_id2)).length
      = (l.map (fun b => (refs b).length)).sum := by
  induction l with
  | nil => simp
  | cons b l ih =>
    have hb := refs_length_eq b (h b (by simp))
    have ih' := ih (fun b' hb' sid hsid => h b' (by simp [hb']) sid hsid)
    simp only [List.filter_cons, List.map_cons, List.sum_cons]
    cases h1 : truthy b.seat_id1 <;> cases h2 : truthy b.seat_id2 <;>
      simp only [h1, h2, Bool.false_eq_true, ite_true, ite_false,
        List.length_cons] at hb ⊢ <;> omega

/-- Under positive seat numbers, `current_user_tickets` computes the
spec's "sum of seats held by the user's live bookings". -/
theorem current_user_tickets_eq_quotaSum (s : DBState) (e : Nat) (u : String)
    (h : ∀ b ∈ user_bookings s e u, ∀ sid ∈ refs b, 1 ≤ sid) :
    current_user_tickets s e u = quotaSum s e u :=
  count_filter_eq (user_bookings s e u) h

/-! ### The reachable-state invariant -/

/-- The inductive invariant of the store.  It packages the primary-key
constraints, freshness of the UUID counter, and the booking/seat
consistency properties the spec claims. -/
structure Inv (s : DBState) : Prop where
  events_lt : ∀ e ∈ s.events, e.event_id < s.nextId
  seats_lt : ∀ st ∈ s.seats, st.event_id < s.nextId
  bookings_lt : ∀ b ∈ s.bookings, b.booking_id < s.nextId
  bookings_id_nodup : (s.bookings.map Booking.booking_id).Nodup
  seats_key_nodup : (s.seats.map seatKey).Nodup
  seats_pos : ∀ st ∈ s.seats, 1 ≤ st.seat_id
  refs_pos : ∀ b ∈ s.bookings, ∀ sid ∈ refs b, 1 ≤ sid
  refs_resolve : ∀ b ∈ s.bookings, ∀ sid ∈ refs b,
    ∃ st ∈ s.seats, st.event_id = b.event_id ∧ st.seat_id = sid ∧ st.is_booked = true
  refs_nodup : ∀ b ∈ s.bookings, (refs b).Nodup
  disjoint : s.bookings.Pairwise (fun a b => a.event_id = b.event_id →
    ∀ sid ∈ refs a, sid ∉ refs b)
  booked_ref : ∀ st ∈ s.seats, st.is_booked = true →
    ∃ b ∈ s.bookings, b.event_id = st.event_id ∧ st.seat_id ∈ refs b
  quota : ∀ e u, quotaSum s e u ≤ 2

theorem inv_empty : Inv emptyDB := by
  constructor <;> simp [emptyDB, quotaSum, user_bookings]

/-- The symmetric reading of the pairwise-disjointness relation. -/
theorem disjoint_symm : Symmetric (fun a b : Booking => a.event_id = b.event_id →
    ∀ sid ∈ refs a, sid ∉ refs b) := by
  intro x y hxy hev sid hy hx
  exact hxy hev.symm sid hx hy

/-- `initialize_event` preserves the invariant. -/
theorem inv_init_event {s : DBState} (hs : Inv s) : Inv (initialize_event s).1 := by
  have hub : (initialize_event s).1.bookings = s.bookings := rfl
  constructor
  · intro e he
    rcases List.mem_append.mp he with h | h
    · exact Nat.lt_succ_of_lt (hs.events_lt e h)
    · simp only [List.mem_singleton] at h
      subst h
      exact Nat.lt_succ_self _
  · intro st hst
    rcases List.mem_append.mp hst with h | h
    · exact Nat.lt_succ_of_lt (hs.seats_lt st h)
    · rcases List.mem_map.mp h with ⟨i, _, rfl⟩
      exact Nat.lt_succ_self _
  · intro b hb
    exact Nat.lt_succ_of_lt (hs.bookings_lt b (hub ▸ hb))
  · exact hub ▸ hs.bookings_id_nodup
  · show ((s.seats ++ _).map seatKey).Nodup
    rw [List.map_append, List.nodup_append]
    refine ⟨hs.seats_key_nodup, ?_, ?_⟩
    · rw [List.map_map]
      refine List.Nodup.map ?_ (List.nodup_range' 1 _)
      intro a b hab
      simpa [seatKey, Function.comp] using congrArg Prod.snd hab
    · intro k hk hk'
      rcases List.mem_map.mp hk with ⟨st, hst, rfl⟩
      rw [List.map_map] at hk'
      rcases List.mem_map.mp hk' with ⟨i, _, heq⟩
      have hlt := hs.seats_lt st hst
      have hev : s.nextId = st.event_id := by
        simpa [seatKey, Function.comp] using congrArg Prod.fst heq
      omega
  · intro st hst
    rcases List.mem_append.mp hst with h | h
    · exact hs.seats_pos st h
    · rcases List.mem_map.mp h with ⟨i, hi, rfl⟩
      exact (List.mem_range'_1.mp hi).1
  · intro b hb
    exact hs.refs_pos b (hub ▸ hb)
  · intro b hb sid hsid
    rcases hs.refs_resolve b (hub ▸ hb) sid hsid with ⟨st, hst, h1, h2, h3⟩
    exact ⟨st, List.mem_append_left _ hst, h1, h2, h3⟩
  · intro b hb
    exact hs.refs_nodup b (hub ▸ hb)
  · exact hub ▸ hs.disjoint
  · intro st hst hbk
    rcases List.mem_append.mp hst with h | h
    · rcases hs.booked_ref st h hbk with ⟨b, hb, h1, h2⟩
      exact ⟨b, hub ▸ hb, h1, h2⟩
    · rcases List.mem_map.mp h with ⟨i, _, rfl⟩
      simp at hbk
  · intro e u
    exact hs.quota e u

/-- A successful `book_ticket` call preserves the invariant. -/
theorem inv_book {s s' : DBState} {e : Nat} {u : String} {t : Nat} {b : Booking}
    (hs : Inv s) (h : book_ticket s e u t = (s', .ok b)) : Inv s' := by
  obtain ⟨⟨ev, hev, hevid⟩, hq, hlen, hbb, hss⟩ := book_ticket_ok s s' e u t b h
  subst hbb
  subst hss
  have ht2 : t ≤ 2 := by omega
  have hrefs : refs (book_new_booking s e u t) = (available_seats s e t).map Seat.seat_id :=
    refs_book_new_booking hlen ht2
  have hidsnodup := available_ids_nodup s e t hs.seats_key_nodup
  have hmemid : ∀ sid ∈ (available_seats s e t).map Seat.seat_id,
      ∃ a ∈ s.seats, a.event_id = e ∧ a.is_booked = false ∧ a.seat_id = sid := by
    intro sid hsid
    rcases List.mem_map.mp hsid with ⟨a, ha, rfl⟩
    rcases mem_available_seats ha with ⟨h1, h2, h3⟩
    exact ⟨a, h1, h2, h3, rfl⟩
  have hnotref : ∀ b' ∈ s.bookings, b'.event_id = e →
      ∀ sid ∈ refs b', sid ∉ (available_seats s e t).map Seat.seat_id := by
    intro b' hb' hbev sid hsid hmem
    rcases hmemid sid hmem with ⟨a, haS, haE, haB, haid⟩
    rcases hs.refs_resolve b' hb' sid hsid with ⟨st, hst, h1, h2, h3⟩
    have hkey : seatKey st = seatKey a := by
      simp [seatKey, h1, h2, hbev, haE, haid]
    have hsta := List.inj_on_of_nodup_map hs.seats_key_nodup hst haS hkey
    rw [hsta, haB] at h3
    exact Bool.false_ne_true h3
  constructor
  · intro e' he'
    exact Nat.lt_succ_of_lt (hs.events_lt e' he')
  · intro st hst
    rcases List.mem_map.mp hst with ⟨st0, h0, rfl⟩
    rw [bookTransform_event_id]
    exact Nat.lt_succ_of_lt (hs.seats_lt st0 h0)
  · intro b' hb'
    rcases List.mem_append.mp hb' with h' | h'
    · exact Nat.lt_succ_of_lt (hs.bookings_lt b' h')
    · simp only [List.mem_singleton] at h'
      subst h'
      exact Nat.lt_succ_self _
  · simp only [book_commit]
    rw [List.map_append, List.nodup_append]
    refine ⟨hs.bookings_id_nodup, by simp, ?_⟩
    intro x hx hx'
    simp only [List.map_cons, List.map_nil, List.mem_singleton, book_new_booking] at hx'
    rcases List.mem_map.mp hx with ⟨b', hb', rfl⟩
    have := hs.bookings_lt b' hb'
    omega
  · simp only [book_commit]
    rw [List.map_map,
      show seatKey ∘ bookTransform s e t = seatKey from funext (seatKey_bookTransform s e t)]
    exact hs.seats_key_nodup
  · intro st hst
    rcases List.mem_map.mp hst with ⟨st0, h0, rfl⟩
    rw [bookTransform_seat_id]
    exact hs.seats_pos st0 h0
  · intro b' hb' sid hsid
    rcases List.mem_append.mp hb' with h' | h'
    · exact hs.refs_pos b' h' sid hsid
    · simp only [List.mem_singleton] at h'
      subst h'
      rw [hrefs] at hsid
      rcases hmemid sid hsid with ⟨a, haS, _, _, haid⟩
      exact haid ▸ hs.seats_pos a haS
  · intro b' hb' sid hsid
    rcases List.mem_append.mp hb' with h' | h'
    · rcases hs.refs_resolve b' h' sid hsid with ⟨st, hst, h1, h2, h3⟩
      exact ⟨bookTransform s e t st, List.mem_map.mpr ⟨st, hst, rfl⟩,
        (bookTransform_event_id s e t st).trans h1,
        (bookTransform_seat_id s e t st).trans h2, bookTransform_booked s e t st h3⟩
    · simp only [List.mem_singleton] at h'
      subst h'
      rw [hrefs] at hsid
      rcases hmemid sid hsid with ⟨a, haS, haE, haB, haid⟩
      refine ⟨bookTransform s e t a, List.mem_map.mpr ⟨a, haS, rfl⟩, ?_, ?_, ?_⟩
      · rw [bookTransform_event_id, haE]
        rfl
      · rw [bookTransform_seat_id, haid]
      · rw [bookTransform_selected haE (haid ▸ hsid)]
  · intro b' hb'
    rcases List.mem_append.mp hb' with h' | h'
    · exact hs.refs_nodup b' h'
    · simp only [List.mem_singleton] at h'
      subst h'
      rw [hrefs]
      exact hidsnodup
  · simp only [book_commit]
    rw [List.pairwise_append]
    refine ⟨hs.disjoint, by simp, ?_⟩
    intro a ha b' hb'
    simp only [List.mem_singleton] at hb'
    subst hb'
    intro hev' sid hsid
    rw [hrefs]
    exact hnotref a ha hev' sid hsid
  · intro st hst hbk
    rcases List.mem_map.mp hst with ⟨st0, h0, rfl⟩
    by_cases hc : st0.event_id = e ∧ st0.seat_id ∈ (available_seats s e t).map Seat.seat_id
    · refine ⟨book_new_booking s e u t, List.mem_append_right _ (by simp), ?_, ?_⟩
      · rw [bookTransform_event_id]
        exact hc.1.symm
      · rw [bookTransform_seat_id, hrefs]
        exact hc.2
    · rw [bookTransform_not_selected hc] at hbk ⊢
      rcases hs.booked_ref st0 h0 hbk with ⟨b'', hb'', h1, h2⟩
      exact ⟨b'', List.mem_append_left _ hb'', h1, h2⟩
  · intro e' u'
    have hq2 : quotaSum (book_commit s e u t) e' u' =
        quotaSum s e' u' +
          ((List.filter (fun b' => b'.event_id == e' && b'.user_id == u')
            [book_new_booking s e u t]).map (fun b' => (refs b').length)).sum := by
      unfold quotaSum user_bookings
      simp only [book_commit]
      rw [List.filter_append, List.map_append, List.sum_append]
    rw [hq2]
    by_cases hmatch : e = e' ∧ u = u'
    · obtain ⟨rfl, rfl⟩ := hmatch
      have hfilter : List.filter (fun b' => b'.event_id == e && b'.user_id == u)
          [book_new_booking s e u t] = [book_new_booking s e u t] := by
        simp [book_new_booking]
      rw [hfilter]
      have hcur := current_user_tickets_eq_quotaSum s e u
        (fun b' hb' sid hsid => hs.refs_pos b' (List.mem_filter.mp hb').1 sid hsid)
      have hlen' : (refs (book_new_booking s e u t)).length = t := by
        rw [hrefs, List.length_map]
        exact hlen
      simp only [List.map_cons, List.map_nil, List.sum_cons, List.sum_nil]
      omega
    · have hfilter : List.filter (fun b' => b'.event_id == e' && b'.user_id == u')
          [book_new_booking s e u t] = [] := by
        simp only [List.filter_cons, List.filter_nil, book_new_booking]
        rw [if_neg]
        intro hcond
        simp only [Bool.and_eq_true, beq_iff_eq] at hcond
        exact hmatch ⟨hcond.1, hcond.2⟩
      rw [hfilter]
      simpa using hs.quota e' u'

/-- The update the two sequential seat releases of `cancel_ticket`
apply to one seat row, packaged as a single map. -/
def cancelTransform (b : Booking) (st : Seat) : Seat :=
  if (truthy b.seat_id1 && (st.event_id == b.event_id && st.seat_id == b.seat_id1.getD 0))
      || (truthy b.seat_id2 && (st.event_id == b.event_id && st.seat_id == b.seat_id2.getD 0)) then
    { st with is_booked := false }
  else st

theorem cancel_commit_seats (s : DBState) (booking : Booking) (bid : Nat) :
    (cancel_commit s booking bid).seats = s.seats.map (cancelTransform booking) := by
  unfold cancel_commit
  by_cases h1 : truthy booking.seat_id1
  · by_cases h2 : truthy booking.seat_id2
    · simp only [h1, h2, ite_true]
      unfold free_seat
      rw [List.map_map]
      refine List.map_congr_left (fun st _ => ?_)
      unfold cancelTransform
      simp only [h1, h2, Bool.true_and, Function.comp]
      by_cases c1 : (st.event_id == booking.event_id
          && st.seat_id == booking.seat_id1.getD 0) = true
      · by_cases c2 : (st.event_id == booking.event_id
            && st.seat_id == booking.seat_id2.getD 0) = true
        · simp [c1, c2]
        · simp [c1, c2]
      · by_cases c2 : (st.event_id == booking.event_id
            && st.seat_id == booking.seat_id2.getD 0) = true
        · simp [c1, c2]
        · simp [c1, c2]
    · simp only [h1, h2, Bool.false_eq_true, ite_true, ite_false]
      unfold free_seat cancelTransform
      simp only [h1, h2, Bool.true_and, Bool.false_and, Bool.or_false, Bool.false_eq_true,
        ite_false]
  · by_cases h2 : truthy booking.seat_id2
    · simp only [h1, h2, Bool.false_eq_true, ite_true, ite_false]
      unfold free_seat cancelTransform
      simp only [h1, h2, Bool.true_and, Bool.false_and, Bool.false_or, Bool.false_eq_true,
        ite_false]
    · simp only [h1, h2, Bool.false_eq_true, ite_false]
      unfold cancelTransform
      simp only [h1, h2, Bool.false_and, Bool.or_false, Bool.false_eq_true, ite_false]
      exact (List.map_id _).symm

theorem seatKey_cancelTransform (b : Booking) (st : Seat) :
    seatKey (cancelTransform b st) = seatKey st := by
  unfold cancelTransform
  split <;> rfl

theorem cancelTransform_seat_id (b : Booking) (st : Seat) :
    (cancelTransform b st).seat_id = st.seat_id := by
  unfold cancelTransform
  split <;> rfl

theorem cancelTransform_event_id (b : Booking) (st : Seat) :
    (cancelTransform b st).event_id = st.event_id := by
  unfold cancelTransform
  split <;> rfl

/-- Under positive seat references (as the schema guarantees), the
hit-condition of `cancelTransform` says exactly: this row's key is one
the cancelled booking references. -/
theorem cancelTransform_cond (b : Booking) (st : Seat)
    (hpos : ∀ sid ∈ refs b, 1 ≤ sid) :
    ((truthy b.seat_id1 && (st.event_id == b.event_id && st.seat_id == b.seat_id1.getD 0))
      || (truthy b.seat_id2 && (st.event_id == b.event_id && st.seat_id == b.seat_id2.getD 0)))
      = true
    ↔ st.event_id = b.event_id ∧ st.seat_id ∈ refs b := by
  rcases hs1 : b.seat_id1 with _ | n <;> rcases hs2 : b.seat_id2 with _ | m <;>
    simp_all [truthy, refs, Nat.one_le_iff_ne_zero]
  all_goals tauto

theorem cancelTransform_hit {b : Booking} {st : Seat}
    (hpos : ∀ sid ∈ refs b, 1 ≤ sid)
    (h : st.event_id = b.event_id ∧ st.seat_id ∈ refs b) :
    cancelTransform b st = { st with is_booked := false } := by
  unfold cancelTransform
  rw [if_pos ((cancelTransform_cond b st hpos).mpr h)]

theorem cancelTransform_not_hit {b : Booking} {st : Seat}
    (hpos : ∀ sid ∈ refs b, 1 ≤ sid)
    (h : ¬(st.event_id = b.event_id ∧ st.seat_id ∈ refs b)) :
    cancelTransform b st = st := by
  unfold cancelTransform
  rw [if_neg (fun hc => h ((cancelTransform_cond b st hpos).mp hc))]

/-- A successful `cancel_ticket` call preserves the invariant. -/
theorem inv_cancel {s s' : DBState} {bid r : Nat}
    (hs : Inv s) (h : cancel_ticket s bid = (s', .ok r)) : Inv s' := by
  obtain ⟨booking, hf, hr, hss⟩ := cancel_ticket_ok s s' bid r h
  subst hss
  have hmem : booking ∈ s.bookings := List.mem_of_find?_eq_some hf
  have hbid : booking.booking_id = bid := by simpa using List.find?_some hf
  have hpos : ∀ sid ∈ refs booking, 1 ≤ sid := hs.refs_pos booking hmem
  have hseats := cancel_commit_seats s booking bid
  have hbooks : (cancel_commit s booking bid).bookings =
      s.bookings.filter (fun b => !(b.booking_id == bid)) := rfl
  have hsubB : (s.bookings.filter (fun b => !(b.booking_id == bid))).Sublist s.bookings :=
    List.filter_sublist _
  have hmemB : ∀ b' ∈ (cancel_commit s booking bid).bookings,
      b' ∈ s.bookings ∧ b'.booking_id ≠ bid := by
    intro b' hb'
    rw [hbooks] at hb'
    have hb2 := List.mem_filter.mp hb'
    refine ⟨hb2.1, by simpa using hb2.2⟩
  have hneq : ∀ b' ∈ (cancel_commit s booking bid).bookings, b' ≠ booking :=
    fun b' hb' heq => (hmemB b' hb').2 (heq ▸ hbid)
  have hdisj := List.Pairwise.forall disjoint_symm hs.disjoint
  constructor
  · intro e' he'
    exact hs.events_lt e' he'
  · intro st hst
    rw [hseats] at hst
    rcases List.mem_map.mp hst with ⟨st0, h0, rfl⟩
    rw [cancelTransform_event_id]
    exact hs.seats_lt st0 h0
  · intro b' hb'
    exact hs.bookings_lt b' (hmemB b' hb').1
  · rw [hbooks]
    exact ((hsubB.map Booking.booking_id).nodup hs.bookings_id_nodup)
  · rw [hseats, List.map_map,
      show seatKey ∘ cancelTransform booking = seatKey from
        funext (seatKey_cancelTransform booking)]
    exact hs.seats_key_nodup
  · intro st hst
    rw [hseats] at hst
    rcases List.mem_map.mp hst with ⟨st0, h0, rfl⟩
    rw [cancelTransform_seat_id]
    exact hs.seats_pos st0 h0
  · intro b' hb' sid hsid
    exact hs.refs_pos b' (hmemB b' hb').1 sid hsid
  · intro b' hb' sid hsid
    rcases hs.refs_resolve b' (hmemB b' hb').1 sid hsid with ⟨st, hst, h1, h2, h3⟩
    have hnothit : ¬(st.event_id = booking.event_id ∧ st.seat_id ∈ refs booking) := by
      rintro ⟨hev, hsid'⟩
      have hR := hdisj (hmemB b' hb').1 hmem (hneq b' hb')
      exact hR (h1 ▸ hev) sid hsid (h2 ▸ hsid')
    refine ⟨cancelTransform booking st, ?_, ?_, ?_, ?_⟩
    · rw [hseats]
      exact List.mem_map.mpr ⟨st, hst, rfl⟩
    · rw [cancelTransform_not_hit hpos hnothit]
      exact h1
    · rw [cancelTransform_not_hit hpos hnothit]
      exact h2
    · rw [cancelTransform_not_hit hpos hnothit]
      exact h3
  · intro b' hb'
    exact hs.refs_nodup b' (hmemB b' hb').1
  · rw [hbooks]
    exact List.Pairwise.sublist hsubB hs.disjoint
  · intro st hst hbk
    rw [hseats] at hst
    rcases List.mem_map.mp hst with ⟨st0, h0, rfl⟩
    by_cases hit : st0.event_id = booking.event_id ∧ st0.seat_id ∈ refs booking
    · rw [cancelTransform_hit hpos hit] at hbk
      simp at hbk
    · rw [cancelTransform_not_hit hpos hit] at hbk ⊢
      rcases hs.booked_ref st0 h0 hbk with ⟨b'', hb'', hb1, hb2⟩
      have hbne : b'' ≠ booking := by
        rintro rfl
        exact hit ⟨hb1.symm, hb2⟩
      have hidne : b''.booking_id ≠ bid := by
        intro hide
        exact hbne (List.inj_on_of_nodup_map hs.bookings_id_nodup hb'' hmem (hide.trans hbid.symm))
      refine ⟨b'', ?_, hb1, hb2⟩
      rw [hbooks]
      exact List.mem_filter.mpr ⟨hb'', by simpa using hidne⟩
  · intro e' u'
    have hsubU : (user_bookings (cancel_commit s booking bid) e' u').Sublist
        (user_bookings s e' u') := by
      rw [user_bookings, hbooks]
      exact List.Sublist.filter _ hsubB
    calc quotaSum (cancel_commit s booking bid) e' u'
        ≤ quotaSum s e' u' :=
          List.Sublist.sum_le_sum (hsubU.map _) (fun a _ => Nat.zero_le a)
      _ ≤ 2 := hs.quota e' u'

/-! ### Forward success lemmas and further selection facts -/

/-- `ORDER BY seat_id` makes the full sorted selection pairwise
ordered by seat number. -/
theorem mergeSort_seats_sorted (s : DBState) (e : Nat) :
    List.Pairwise (fun x y : Seat => x.seat_id ≤ y.seat_id)
      ((unbooked_seats s e).mergeSort (fun a b => a.seat_id ≤ b.seat_id)) := by
  have hs := @List.sorted_mergeSort Seat (fun a b => a.seat_id ≤ b.seat_id)
    (fun a b c hab hbc => by
      simp only [decide_eq_true_eq] at *
      omega)
    (fun a b => by
      simp only [Bool.or_eq_true, decide_eq_true_eq]
      omega)
    (unbooked_seats s e)
  exact hs.imp (fun hab => by simpa using hab)

/-- The fully sorted list of free seat numbers of an event. -/
theorem mergeSort_ids_sorted (s : DBState) (e : Nat) :
    List.Sorted (fun a b : Nat => a ≤ b)
      (((unbooked_seats s e).map Seat.seat_id).mergeSort (fun a b => a ≤ b)) := by
  have hs := @List.sorted_mergeSort Nat (fun a b => a ≤ b)
    (fun a b c hab hbc => by
      simp only [decide_eq_true_eq] at *
      omega)
    (fun a b => by
      simp only [Bool.or_eq_true, decide_eq_true_eq]
      omega)
    ((unbooked_seats s e).map Seat.seat_id)
  exact hs.imp (fun hab => by simpa using hab)

/-- Sorting the rows by seat number and then projecting the seat
numbers is the same as projecting first and sorting the numbers. -/
theorem available_seats_map_id (s : DBState) (e t : Nat) :
    (available_seats s e t).map Seat.seat_id =
      (((unbooked_seats s e).map Seat.seat_id).mergeSort (fun a b => a ≤ b)).take t := by
  rw [available_seats, List.map_take]
  congr 1
  refine @List.eq_of_perm_of_sorted Nat (fun a b => a ≤ b) _ _ _ ?_ ?_ ?_
  · exact (((List.mergeSort_perm _ _).map _).trans (List.mergeSort_perm _ _).symm)
  · exact (List.pairwise_map).mpr (mergeSort_seats_sorted s e)
  · exact mergeSort_ids_sorted s e

/-- When the event exists, the quota passes and enough unbooked seats
exist, `book_ticket` succeeds and commits. -/
theorem book_ticket_succeeds {s : DBState} {e t : Nat} {u : String}
    (hev : ∃ ev ∈ s.events, ev.event_id = e)
    (hquota : current_user_tickets s e u + t ≤ 2)
    (hcap : t ≤ (unbooked_seats s e).length) :
    book_ticket s e u t = (book_commit s e u t, .ok (book_new_booking s e u t)) := by
  have hlen : (available_seats s e t).length = t := by
    have hperm := (List.mergeSort_perm (unbooked_seats s e)
      (fun a b => a.seat_id ≤ b.seat_id)).length_eq
    simp only [available_seats, List.length_take]
    omega
  have hfind : (s.events.find? (fun x => x.event_id == e)).isSome := by
    rcases hev with ⟨ev, hmem, hid⟩
    exact List.find?_isSome.mpr ⟨ev, hmem, by simp [hid]⟩
  rcases Option.isSome_iff_exists.mp hfind with ⟨ev', hfind'⟩
  unfold book_ticket
  rw [hfind']
  rw [if_neg (by omega), if_neg (by omega)]
  rfl

/-- With distinct booking ids, the lookup of `cancel_ticket` finds the
member booking with the requested id. -/
theorem find?_booking_unique {l : List Booking} {b : Booking}
    (hids : (l.map Booking.booking_id).Nodup) (hmem : b ∈ l) :
    l.find? (fun x => x.booking_id == b.booking_id) = some b := by
  induction l with
  | nil => cases hmem
  | cons a l ih =>
    rw [List.map_cons, List.nodup_cons] at hids
    rcases List.mem_cons.mp hmem with rfl | hmem'
    · exact List.find?_cons_of_pos _ (by simp)
    · have ha : a.booking_id ≠ b.booking_id := by
        intro he
        exact hids.1 (he ▸ List.mem_map.mpr ⟨b, hmem', rfl⟩)
      rw [List.find?_cons_of_neg _ (by simpa using ha)]
      exact ih hids.2 hmem'

/-- When the booking lookup succeeds, `cancel_ticket` succeeds and
commits. -/
theorem cancel_ticket_succeeds {s : DBState} {booking : Booking} {bid : Nat}
    (hf : s.bookings.find? (fun x => x.booking_id == bid) = some booking) :
    cancel_ticket s bid = (cancel_commit s booking bid, .ok bid) := by
  unfold cancel_ticket
  rw [hf]
  rfl

/-- Every reachable state satisfies the invariant. -/
theorem reachable_inv {s : DBState} (h : Reachable s) : Inv s := by
  induction h with
  | empty => exact inv_empty
  | init_event _ ih => exact inv_init_event ih
  | book _ _ _ hstep ih => exact inv_book ih hstep
  | cancel _ hstep ih => exact inv_cancel ih hstep

/-! ### Claim theorems -/

/-- C1: No double booking — in every state reachable by any sequence of
`initialize_event`, `book_ticket` and `cancel_ticket` calls, the seat
references of the live bookings of one event are pairwise disjoint, and
a seat's `is_booked` flag is true exactly when some live booking
references it. -/
theorem C1_no_double_booking {s : DBState} (h : Reachable s) :
    s.bookings.Pairwise (fun a b => a.event_id = b.event_id →
      ∀ sid ∈ refs a, sid ∉ refs b) ∧
    ∀ st ∈ s.seats, (st.is_booked = true ↔
      ∃ b ∈ s.bookings, b.event_id = st.event_id ∧ st.seat_id ∈ refs b) := by
  have hi := reachable_inv h
  refine ⟨hi.disjoint, fun st hst => ⟨fun hbk => hi.booked_ref st hst hbk, ?_⟩⟩
  rintro ⟨b, hb, hev, hsid⟩
  rcases hi.refs_resolve b hb st.seat_id hsid with ⟨st', hst', h1, h2, h3⟩
  have heq : st' = st := List.inj_on_of_nodup_map hi.seats_key_nodup hst' hst
    (by simp [seatKey, h1, h2, hev])
  exact heq ▸ h3

/-- C2: Quota invariant — in every reachable state, for every user and
event, the sum over the user's live bookings of their populated seat
slots is at most 2. -/
theorem C2_quota_invariant {s : DBState} (h : Reachable s) (e : Nat) (u : String) :
    quotaSum s e u ≤ 2 :=
  (reachable_inv h).quota e u

/-- The state after `POST /events/initialize` on an empty store. -/
def exDB1 : DBState := (initialize_event emptyDB).1

/-- The state after alice books two tickets on the fresh event. -/
def exDB2 : DBState := book_commit exDB1 0 "alice" 2

theorem exDB2_step : book_ticket exDB1 0 "alice" 2 =
    (exDB2, .ok (book_new_booking exDB1 0 "alice" 2)) :=
  book_ticket_succeeds (by decide) (by decide) (by decide)

theorem exDB2_reachable : Reachable exDB2 :=
  Reachable.book (Reachable.init_event Reachable.empty) (by decide) (by decide) exDB2_step

theorem C1_witness :
    exDB2.bookings.Pairwise (fun a b => a.event_id = b.event_id →
      ∀ sid ∈ refs a, sid ∉ refs b) ∧
    ∀ st ∈ exDB2.seats, (st.is_booked = true ↔
      ∃ b ∈ exDB2.bookings, b.event_id = st.event_id ∧ st.seat_id ∈ refs b) :=
  C1_no_double_booking exDB2_reachable

theorem C2_witness : quotaSum exDB2 0 "alice" ≤ 2 :=
  C2_quota_invariant exDB2_reachable 0 "alice"

/-- C3: Lowest-seat selection — with no concurrent lock holders, for an
existing event, a user within quota and a count in `{1, 2}` with at
least `count` unbooked seats, `book_ticket` succeeds and assigns
exactly the `count` lowest-numbered unbooked seats of the event, in
ascending order, marking each of them booked.  The primary-key
hypothesis `hkeys` is the schema constraint on the `seats` table. -/
theorem C3_lowest_seat_selection {s : DBState} {e t : Nat} {u : String}
    (hkeys : (s.seats.map seatKey).Nodup)
    (hev : ∃ ev ∈ s.events, ev.event_id = e)
    (hquota : current_user_tickets s e u + t ≤ 2)
    (_ht1 : 1 ≤ t) (ht2 : t ≤ 2)
    (hcap : t ≤ (unbooked_seats s e).length) :
    ∃ s' b, book_ticket s e u t = (s', .ok b) ∧
      (refs b).length = t ∧
      (refs b).Sorted (fun x y => x < y) ∧
      (∀ sid ∈ refs b, sid ∈ (unbooked_seats s e).map Seat.seat_id) ∧
      (∀ x ∈ refs b, ∀ y ∈ (unbooked_seats s e).map Seat.seat_id,
        y ∉ refs b → x < y) ∧
      (∀ st ∈ s'.seats, st.event_id = e → st.seat_id ∈ refs b →
        st.is_booked = true) := by
  have hstep := book_ticket_succeeds hev hquota hcap
  have hlen : (available_seats s e t).length = t := by
    have hperm := (List.mergeSort_perm (unbooked_seats s e)
      (fun a b => a.seat_id ≤ b.seat_id)).length_eq
    simp only [available_seats, List.length_take]
    omega
  have hrefs : refs (book_new_booking s e u t) =
      (available_seats s e t).map Seat.seat_id :=
    refs_book_new_booking hlen ht2
  have hLnodup :
      (((unbooked_seats s e).map Seat.seat_id).mergeSort (fun a b => a ≤ b)).Nodup :=
    ((List.mergeSort_perm _ _).nodup_iff).mpr (unbooked_ids_nodup e hkeys)
  have hLsortedlt :
      List.Sorted (fun x y : Nat => x < y)
        (((unbooked_seats s e).map Seat.seat_id).mergeSort (fun a b => a ≤ b)) :=
    (mergeSort_ids_sorted s e).lt_of_le hLnodup
  refine ⟨book_commit s e u t, book_new_booking s e u t, hstep, ?_, ?_, ?_, ?_, ?_⟩
  · rw [hrefs, List.length_map, hlen]
  · rw [hrefs, available_seats_map_id]
    exact hLsortedlt.sublist (List.take_sublist t _)
  · rw [hrefs]
    intro sid hsid
    rcases List.mem_map.mp hsid with ⟨a, ha, rfl⟩
    rcases mem_available_seats ha with ⟨h1, h2, h3⟩
    exact List.mem_map.mpr ⟨a, mem_unbooked_seats.mpr ⟨h1, h2, h3⟩, rfl⟩
  · rw [hrefs, available_seats_map_id]
    intro x hx y hy hyn
    have hyL : y ∈ ((unbooked_seats s e).map Seat.seat_id).mergeSort (fun a b => a ≤ b) :=
      (List.mergeSort_perm _ _).mem_iff.mpr hy
    rw [← List.take_append_drop t
      (((unbooked_seats s e).map Seat.seat_id).mergeSort (fun a b => a ≤ b))] at hyL
    rcases List.mem_append.mp hyL with hyT | hyD
    · exact absurd hyT hyn
    · have hp := hLsortedlt
      rw [← List.take_append_drop t
        (((unbooked_seats s e).map Seat.seat_id).mergeSort (fun a b => a ≤ b))] at hp
      exact (List.pairwise_append.mp hp).2.2 x hx y hyD
  · intro st hst h1 h2
    simp only [book_commit] at hst
    rcases List.mem_map.mp hst with ⟨st0, h0, rfl⟩
    rw [bookTransform_event_id] at h1
    rw [bookTransform_seat_id] at h2
    rw [hrefs] at h2
    rw [bookTransform_selected h1 h2]

/-- A small concrete store: one event with three free seats. -/
def scW : DBState :=
  { events := [{ event_id := 5, total_tickets := 3 }]
    seats := [{ seat_id := 1, event_id := 5, is_booked := false },
              { seat_id := 2, event_id := 5, is_booked := false },
              { seat_id := 3, event_id := 5, is_booked := false }]
    bookings := []
    nextId := 6 }

theorem C3_witness :
    ∃ s' b, book_ticket scW 5 "alice" 2 = (s', .ok b) ∧
      (refs b).length = 2 ∧
      (refs b).Sorted (fun x y => x < y) ∧
      (∀ sid ∈ refs b, sid ∈ (unbooked_seats scW 5).map Seat.seat_id) ∧
      (∀ x ∈ refs b, ∀ y ∈ (unbooked_seats scW 5).map Seat.seat_id,
        y ∉ refs b → x < y) ∧
      (∀ st ∈ s'.seats, st.event_id = 5 → st.seat_id ∈ refs b →
        st.is_booked = true) :=
  C3_lowest_seat_selection (by decide) (by decide) (by decide) (by decide)
    (by decide) (by decide)

/-- C4: QuotaExceeded condition and diagnostics — for an existing event
and a requested count in `{1, 2}`, `book_ticket` fails with the quota
error exactly when the user's held seats plus the request exceed 2, and
the error payload carries the held count and the requested count.  The
positivity hypothesis is the schema's seat numbering (seats are
numbered from 1). -/
theorem C4_quota_exceeded_iff {s : DBState} {e t : Nat} {u : String}
    (hev : ∃ ev ∈ s.events, ev.event_id = e)
    (hpos : ∀ b ∈ user_bookings s e u, ∀ sid ∈ refs b, 1 ≤ sid)
    (_ht1 : 1 ≤ t) (_ht2 : t ≤ 2) :
    ((∃ held requested, (book_ticket s e u t).2 =
        .error (.quotaExceeded held requested)) ↔ 2 < quotaSum s e u + t) ∧
    (2 < quotaSum s e u + t →
      book_ticket s e u t = (s, .error (.quotaExceeded (quotaSum s e u) t))) := by
  have hcur := current_user_tickets_eq_quotaSum s e u hpos
  rcases hev with ⟨ev, hmem, hid⟩
  have hfind : (s.events.find? (fun x => x.event_id == e)).isSome :=
    List.find?_isSome.mpr ⟨ev, hmem, by simp [hid]⟩
  rcases Option.isSome_iff_exists.mp hfind with ⟨ev', hfind'⟩
  have hq2 : 2 < quotaSum s e u + t →
      book_ticket s e u t = (s, .error (.quotaExceeded (quotaSum s e u) t)) := by
    intro hgt
    unfold book_ticket
    rw [hfind', if_pos (by omega), hcur]
  refine ⟨⟨?_, fun hgt => ⟨quotaSum s e u, t, by rw [hq2 hgt]⟩⟩, hq2⟩
  rintro ⟨held, req, herr⟩
  by_cases hq : 2 < current_user_tickets s e u + t
  · omega
  · exfalso
    unfold book_ticket at herr
    rw [hfind', if_neg (by omega)] at herr
    by_cases hc : (available_seats s e t).length < t
    · rw [if_pos hc] at herr
      simp at herr
    · rw [if_neg hc] at herr
      simp at herr

/-- The concrete scenario of the spec: alice already holds seats 1 and
2 of a three-seat event. -/
def scQ : DBState :=
  { events := [{ event_id := 5, total_tickets := 3 }]
    seats := [{ seat_id := 1, event_id := 5, is_booked := true },
              { seat_id := 2, event_id := 5, is_booked := true },
              { seat_id := 3, event_id := 5, is_booked := false }]
    bookings := [{ booking_id := 6, event_id := 5, seat_id1 := some 1,
                   seat_id2 := some 2, user_id := "alice" }]
    nextId := 7 }

theorem C4_witness :
    ((∃ held requested, (book_ticket scQ 5 "alice" 1).2 =
        .error (.quotaExceeded held requested)) ↔ 2 < quotaSum scQ 5 "alice" + 1) ∧
    (2 < quotaSum scQ 5 "alice" + 1 →
      book_ticket scQ 5 "alice" 1 =
        (scQ, .error (.quotaExceeded (quotaSum scQ 5 "alice") 1))) :=
  C4_quota_exceeded_iff (by decide) (by decide) (by decide) (by decide)

/-- C5: InsufficientCapacity condition — for an existing event, a user
within quota and a count in `{1, 2}`, when fewer than `count` seats of
the event are unbooked, `book_ticket` fails with the capacity error and
the state is returned unchanged (the transaction rolls back). -/
theorem C5_insufficient_capacity {s : DBState} {e t : Nat} {u : String}
    (hev : ∃ ev ∈ s.events, ev.event_id = e)
    (hquota : current_user_tickets s e u + t ≤ 2)
    (_ht1 : 1 ≤ t) (_ht2 : t ≤ 2)
    (hcap : (unbooked_seats s e).length < t) :
    book_ticket s e u t =
      (s, .error (.insufficientCapacity (unbooked_seats s e).length t)) := by
  rcases hev with ⟨ev, hmem, hid⟩
  have hfind : (s.events.find? (fun x => x.event_id == e)).isSome :=
    List.find?_isSome.mpr ⟨ev, hmem, by simp [hid]⟩
  rcases Option.isSome_iff_exists.mp hfind with ⟨ev', hfind'⟩
  have hlen : (available_seats s e t).length = (unbooked_seats s e).length := by
    have hperm := (List.mergeSort_perm (unbooked_seats s e)
      (fun a b => a.seat_id ≤ b.seat_id)).length_eq
    simp only [available_seats, List.length_take]
    omega
  unfold book_ticket
  rw [hfind', if_neg (by omega), if_pos (by omega), hlen]

/-- carol cannot get a ticket once all three seats are taken. -/
def scC : DBState :=
  { events := [{ event_id := 5, total_tickets := 3 }]
    seats := [{ seat_id := 1, event_id := 5, is_booked := true },
              { seat_id := 2, event_id := 5, is_booked := true },
              { seat_id := 3, event_id := 5, is_booked := true }]
    bookings := [{ booking_id := 6, event_id := 5, seat_id1 := some 1,
                   seat_id2 := some 2, user_id := "alice" },
                 { booking_id := 7, event_id := 5, seat_id1 := some 3,
                   seat_id2 := none, user_id := "bob" }]
    nextId := 8 }

theorem C5_witness :
    book_ticket scC 5 "carol" 1 =
      (scC, .error (.insufficientCapacity (unbooked_seats scC 5).length 1)) :=
  C5_insufficient_capacity (by decide) (by decide) (by decide) (by decide) (by decide)

/-- C6: Rollback atomicity of booking — every failing `book_ticket`
call (any of its domain errors) leaves the durable state exactly as it
was: no seat row changed and no booking row was created. -/
theorem C6_rollback_atomicity (s : DBState) (e : Nat) (u : String) (t : Nat)
    (err : BookErr) (h : (book_ticket s e u t).2 = .error err) :
    (book_ticket s e u t).1 = s :=
  book_ticket_error_state s e u t err h

theorem C6_witness : (book_ticket emptyDB 0 "alice" 1).1 = emptyDB :=
  C6_rollback_atomicity emptyDB 0 "alice" 1 .notFound (by rfl)

/-- C7: Cancellation releases exactly its own seats — cancelling a live
booking frees every existing seat row one of its populated slots
references, deletes that booking row, and leaves every other booking
row, every seat row it does not reference, and the events table
unchanged.  `hids` is the primary-key constraint of the `bookings`
table; `hpos` is the schema's seat numbering (seats are numbered
from 1). -/
theorem C7_cancel_frame {s : DBState} {b : Booking}
    (hids : (s.bookings.map Booking.booking_id).Nodup)
    (hmem : b ∈ s.bookings)
    (hpos : ∀ sid ∈ refs b, 1 ≤ sid) :
    ∃ s', cancel_ticket s b.booking_id = (s', .ok b.booking_id) ∧
      (∀ st ∈ s'.seats, st.event_id = b.event_id → st.seat_id ∈ refs b →
        st.is_booked = false) ∧
      (∀ st ∈ s.seats, ¬(st.event_id = b.event_id ∧ st.seat_id ∈ refs b) →
        st ∈ s'.seats) ∧
      s'.seats.length = s.seats.length ∧
      (∀ b' ∈ s.bookings, b' ≠ b → b' ∈ s'.bookings) ∧
      (∀ b' ∈ s'.bookings, b' ∈ s.bookings ∧ b' ≠ b) ∧
      b ∉ s'.bookings ∧
      s'.events = s.events := by
  have hf := find?_booking_unique hids hmem
  have hstep := cancel_ticket_succeeds hf
  refine ⟨cancel_commit s b b.booking_id, hstep, ?_, ?_, ?_, ?_, ?_, ?_, rfl⟩
  · intro st hst h1 h2
    rw [cancel_commit_seats] at hst
    rcases List.mem_map.mp hst with ⟨st0, h0, rfl⟩
    rw [cancelTransform_event_id] at h1
    rw [cancelTransform_seat_id] at h2
    rw [cancelTransform_hit hpos ⟨h1, h2⟩]
  · intro st hst hnot
    rw [cancel_commit_seats]
    exact List.mem_map.mpr ⟨st, hst, cancelTransform_not_hit hpos hnot⟩
  · rw [cancel_commit_seats]
    exact List.length_map _ _
  · intro b' hb' hne
    show b' ∈ s.bookings.filter _
    refine List.mem_filter.mpr ⟨hb', ?_⟩
    have hidne : b'.booking_id ≠ b.booking_id :=
      fun he => hne (List.inj_on_of_nodup_map hids hb' hmem he)
    simpa using hidne
  · intro b' hb'
    have hb'' : b' ∈ s.bookings.filter (fun x => !(x.booking_id == b.booking_id)) := hb'
    have h2 := List.mem_filter.mp hb''
    refine ⟨h2.1, fun he => ?_⟩
    subst he
    simp at h2
  · intro hbmem
    have hb'' : b ∈ s.bookings.filter (fun x => !(x.booking_id == b.booking_id)) := hbmem
    have h2 := List.mem_filter.mp hb''
    simp at h2

/-- A store whose single booking holds seats 1 and 2 of event 5, with
another user's booking alongside. -/
def scF : DBState :=
  { events := [{ event_id := 5, total_tickets := 3 }]
    seats := [{ seat_id := 1, event_id := 5, is_booked := true },
              { seat_id := 2, event_id := 5, is_booked := true },
              { seat_id := 3, event_id := 5, is_booked := true }]
    bookings := [{ booking_id := 6, event_id := 5, seat_id1 := some 1,
                   seat_id2 := some 2, user_id := "alice" },
                 { booking_id := 7, event_id := 5, seat_id1 := some 3,
                   seat_id2 := none, user_id := "bob" }]
    nextId := 8 }

/-- alice's booking inside `scF`. -/
def scFB : Booking :=
  { booking_id := 6, event_id := 5, seat_id1 := some 1, seat_id2 := some 2,
    user_id := "alice" }

theorem C7_witness :
    ∃ s', cancel_ticket scF scFB.booking_id = (s', .ok scFB.booking_id) ∧
      (∀ st ∈ s'.seats, st.event_id = scFB.event_id → st.seat_id ∈ refs scFB →
        st.is_booked = false) ∧
      (∀ st ∈ scF.seats, ¬(st.event_id = scFB.event_id ∧ st.seat_id ∈ refs scFB) →
        st ∈ s'.seats) ∧
      s'.seats.length = scF.seats.length ∧
      (∀ b' ∈ scF.bookings, b' ≠ scFB → b' ∈ s'.bookings) ∧
      (∀ b' ∈ s'.bookings, b' ∈ scF.bookings ∧ b' ≠ scFB) ∧
      scFB ∉ s'.bookings ∧
      s'.events = scF.events :=
  C7_cancel_frame (by decide) (by decide) (by decide)

/-- C8: Cancellation NotFound and dangling-reference tolerance —
`cancel_ticket` reports `NotFound` exactly when no booking row carries
the requested id; when one does, the call succeeds (with no requirement
that the referenced seat rows exist: a dangling slot is silently
skipped) and the booking row is deleted. -/
theorem C8_cancel_not_found_iff (s : DBState) (bid : Nat) :
    ((cancel_ticket s bid).2 = .error .notFound ↔
      ¬∃ b ∈ s.bookings, b.booking_id = bid) ∧
    (∀ b ∈ s.bookings, b.booking_id = bid →
      ∃ s', cancel_ticket s bid = (s', .ok bid) ∧
        ∀ b' ∈ s'.bookings, b'.booking_id ≠ bid) := by
  constructor
  · rw [cancel_ticket_not_found_iff]
    simp
  · intro b hb he
    have hfind : (s.bookings.find? (fun x => x.booking_id == bid)).isSome :=
      List.find?_isSome.mpr ⟨b, hb, by simp [he]⟩
    rcases Option.isSome_iff_exists.mp hfind with ⟨bk, hfk⟩
    refine ⟨cancel_commit s bk bid, cancel_ticket_succeeds hfk, ?_⟩
    intro b' hb'
    have hb'' : b' ∈ s.bookings.filter (fun x => !(x.booking_id == bid)) := hb'
    have h2 := List.mem_filter.mp hb''
    simpa using h2.2

/-- A store holding a booking whose first slot references seat 9 of
event 5 although no seat rows exist at all: a dangling reference. -/
def scD : DBState :=
  { events := [{ event_id := 5, total_tickets := 3 }]
    seats := []
    bookings := [{ booking_id := 7, event_id := 5, seat_id1 := some 9,
                   seat_id2 := none, user_id := "dave" }]
    nextId := 8 }

theorem C8_witness :
    ((cancel_ticket scD 7).2 = .error .notFound ↔
      ¬∃ b ∈ scD.bookings, b.booking_id = 7) ∧
    (∀ b ∈ scD.bookings, b.booking_id = 7 →
      ∃ s', cancel_ticket scD 7 = (s', .ok 7) ∧
        ∀ b' ∈ s'.bookings, b'.booking_id ≠ 7) :=
  C8_cancel_not_found_iff scD 7

/-- Modelled from the spec: `initializeEvent` as §6 of the spec tables
it — "capacity (optional, default 100)" — creating an Event whose
`total_tickets` equals the requested capacity and one unbooked Seat per
number `1..capacity` in the same transaction.  This definition exists
only for comparison with the source's `initialize_event`, which has no
such parameter. -/
def initializeEvent_spec (s : DBState) (capacity : Nat) : DBState × Nat :=
  let eid := s.nextId
  let new_event : Event := { event_id := eid, total_tickets := capacity }
  let new_seats : List Seat :=
    (List.range' 1 capacity).map
      (fun i => { seat_id := i, event_id := eid, is_booked := false })
  ({ s with events := s.events ++ [new_event],
            seats := s.seats ++ new_seats,
            nextId := s.nextId + 1 },
    eid)

/-- C9 counterexample: the claim says `initializeEvent` takes an
optional capacity and materializes `1..capacity` seats, but the handler
accepts no capacity input at all — with the spec's own scenario value
(capacity 3) the spec-modelled operation and the code disagree on the
very first call: the code always creates an event of 100 seats. -/
theorem C9_counterexample :
    (initializeEvent_spec emptyDB 3).1 ≠ (initialize_event emptyDB).1 ∧
    (initializeEvent_spec emptyDB 3).1.seats.length = 3 ∧
    (initialize_event emptyDB).1.seats.length = 100 ∧
    (∀ ev ∈ (initialize_event emptyDB).1.events, ev.total_tickets = 100) := by
  refine ⟨?_, by decide, ?_, ?_⟩
  · intro h
    have := congrArg (fun st => st.seats.length) h
    simp [initializeEvent_spec, initialize_event, emptyDB] at this
  · simp [initialize_event, emptyDB]
  · intro ev hev
    simp only [initialize_event, emptyDB] at hev
    simp only [List.nil_append, List.mem_singleton] at hev
    rw [hev]

/-- C9 (amended): `initialize_event` takes no capacity input; it always
creates exactly one Event row with `total_tickets = 100` together with
one unbooked Seat row per seat number `1..100`, in the same
transaction, leaving the bookings table untouched; being total, it
never fails with a domain error. -/
theorem C9_initialize_event_amended (s : DBState) :
    ∃ ev : Event, (initialize_event s).1.events = s.events ++ [ev] ∧
      ev.total_tickets = 100 ∧
      ev.event_id = (initialize_event s).2 ∧
      (initialize_event s).1.seats = s.seats ++
        (List.range' 1 100).map
          (fun i => { seat_id := i, event_id := ev.event_id, is_booked := false }) ∧
      (initialize_event s).1.bookings = s.bookings :=
  ⟨{ event_id := s.nextId, total_tickets := 100 }, rfl, rfl, rfl, rfl, rfl⟩

/-- C10: Seat-slot layout of a booking — every successful `book_ticket`
call left-packs the assigned seats: slot 2 is only ever populated when
slot 1 is; a one-ticket booking fills slot 1 only, and a two-ticket
booking fills both slots with the lower seat number in slot 1.  `hkeys`
is the primary-key constraint of the `seats` table. -/
theorem C10_left_packed {s s' : DBState} {e t : Nat} {u : String} {b : Booking}
    (hkeys : (s.seats.map seatKey).Nodup)
    (h : book_ticket s e u t = (s', .ok b)) :
    (b.seat_id2.isSome → b.seat_id1.isSome) ∧
    (t = 1 → ∃ x, b.seat_id1 = some x ∧ b.seat_id2 = none) ∧
    (t = 2 → ∃ x y, b.seat_id1 = some x ∧ b.seat_id2 = some y ∧ x < y) := by
  obtain ⟨hev, hq, hlen, hbb, hss⟩ := book_ticket_ok s s' e u t b h
  subst hbb
  have hsorted := available_seats_sorted s e t
  have hnodup := available_ids_nodup s e t hkeys
  rcases hl : available_seats s e t with _ | ⟨a, _ | ⟨a2, rest⟩⟩
  · have ht0 : t = 0 := by
      rw [hl] at hlen
      simpa using hlen.symm
    refine ⟨by simp [book_new_booking, hl], by omega, by omega⟩
  · have ht1 : t = 1 := by
      rw [hl] at hlen
      simpa using hlen.symm
    refine ⟨by simp [book_new_booking, hl], ?_, by omega⟩
    intro _
    exact ⟨a.seat_id, by simp [book_new_booking, hl], by simp [book_new_booking, hl]⟩
  · have ht2 : t ≤ 2 := by omega
    rw [hl] at hlen
    have hrest : rest = [] := by
      have hr0 : rest.length = 0 := by
        simp only [List.length_cons] at hlen
        omega
      exact List.length_eq_zero.mp hr0
    subst hrest
    have htt : t = 2 := by simpa using hlen.symm
    rw [hl] at hsorted
    rw [hl] at hnodup
    have hle : a.seat_id ≤ a2.seat_id := by
      have hp := List.pairwise_cons.mp hsorted
      exact hp.1 a2 (by simp)
    have hne : a.seat_id ≠ a2.seat_id := by
      simp only [List.map_cons, List.map_nil, List.nodup_cons] at hnodup
      intro he
      exact hnodup.1 (by simp [he])
    refine ⟨by simp [book_new_booking, hl], by omega, ?_⟩
    intro _
    exact ⟨a.seat_id, a2.seat_id, by simp [book_new_booking, hl],
      by simp [book_new_booking, hl], by omega⟩

theorem C10_witness :
    ((book_new_booking scW 5 "alice" 2).seat_id2.isSome →
      (book_new_booking scW 5 "alice" 2).seat_id1.isSome) ∧
    ((2 : Nat) = 1 → ∃ x, (book_new_booking scW 5 "alice" 2).seat_id1 = some x ∧
      (book_new_booking scW 5 "alice" 2).seat_id2 = none) ∧
    ((2 : Nat) = 2 → ∃ x y, (book_new_booking scW 5 "alice" 2).seat_id1 = some x ∧
      (book_new_booking scW 5 "alice" 2).seat_id2 = some y ∧ x < y) :=
  C10_left_packed (by decide)
    (book_ticket_succeeds (by decide) (by decide) (by decide))

end Ticketing
